import Mathlib

/-!
Verification of the odin-core governance and orchestration layer against its
specification.  The Rust sources are shallowly embedded: each Lean definition
mirrors one Rust function or type.  Rust string primitives (`trim`,
`strip_prefix`, `split`, `to_ascii_lowercase`, `ends_with`, `contains`) are
modelled by structurally recursive functions over the character list so that
every definition evaluates inside the kernel.  Stateful collaborators (audit
sink, task ingress, executor, plugin runner) are modelled as explicit
possibly-failing functions, and every runtime entry point returns the list of
side effects it performed (audit records accepted by the sink, payloads
accepted by the ingress, executor invocations) next to its Rust return value.
-/

namespace Odin

/-! ### Rust string primitives -/

/-- Whitespace class used by Rust `char::is_whitespace`, restricted to the
ASCII whitespace characters that occur in this code base. -/
def isWsChar (c : Char) : Bool :=
  c = ' ' || c = '\t' || c = '\n' || c = '\r'

/-- Rust `str::trim`: drop leading and trailing whitespace. -/
def strTrim (s : String) : String :=
  .mk (((s.data.dropWhile isWsChar).reverse.dropWhile isWsChar).reverse)

/-- Rust `char::to_ascii_lowercase`. -/
def charAsciiLower (c : Char) : Char :=
  if 'A' ≤ c ∧ c ≤ 'Z' then Char.ofNat (c.toNat + 32) else c

/-- Rust `str::to_ascii_lowercase`. -/
def strAsciiLower (s : String) : String :=
  .mk (s.data.map charAsciiLower)

/-- Rust `str::strip_prefix`: the remainder after a literal prefix, when the
string starts with it. -/
def strStripPre (s pre : String) : Option String :=
  if pre.data.isPrefixOf s.data then some (.mk (s.data.drop pre.data.length)) else none

/-- Rust `str::ends_with` for a literal suffix. -/
def strEndsWith (s suffix : String) : Bool :=
  suffix.data.isSuffixOf s.data

/-- Core of `strSplit`, mirroring Rust `str::split` on a character predicate:
every matching character is a separator, so adjacent separators produce empty
items and the result is always non-empty. -/
def splitChars (p : Char → Bool) : List Char → List String
  | [] => [""]
  | c :: cs =>
    let rest := splitChars p cs
    if p c then "" :: rest
    else
      match rest with
      | [] => [.mk [c]]
      | r :: rs => .mk (c :: r.data) :: rs

/-- Rust `str::split` on a character predicate. -/
def strSplit (s : String) (p : Char → Bool) : List String :=
  splitChars p s.data

/-- Rust `str::contains` with a non-empty literal pattern: substring search. -/
def strContainsSub (s pat : String) : Bool :=
  go pat.data s.data
where
  go (needle : List Char) : List Char → Bool
    | [] => needle.isEmpty
    | c :: t => needle.isPrefixOf (c :: t) || go needle t

/-! ### Protocol types (`odin-plugin-protocol`) -/

/-- Mirrors `odin_plugin_protocol::RiskTier`. -/
inductive RiskTier
  | safe
  | sensitive
  | destructive
  deriving DecidableEq, Repr

/-- Mirrors `odin_plugin_protocol::TrustLevel`. -/
inductive TrustLevel
  | trusted
  | caution
  | untrusted
  deriving DecidableEq, Repr

/-- Minimal JSON value model standing in for `serde_json::Value`. -/
inductive Json
  | null
  | bool (b : Bool)
  | num (n : Nat)
  | str (s : String)
  | arr (xs : List Json)
  | obj (fields : List (String × Json))

/-- Field lookup on a JSON object, mirroring `serde_json::Value::get`. -/
def Json.field : Json → String → Option Json
  | .obj fields, key => (fields.find? (fun kv => kv.1 = key)).map (·.2)
  | _, _ => none

/-- `serde_json` serialization of an optional string: `None` becomes `null`. -/
def jsonOfOptStr : Option String → Json
  | some s => .str s
  | none => .null

/-- Mirrors `odin_plugin_protocol::CapabilityRequest`. -/
structure CapabilityRequest where
  plugin : String
  project : String
  capability : String
  scope : List String
  reason : String

/-- Mirrors `odin_plugin_protocol::ActionRequest`. -/
structure ActionRequest where
  request_id : String
  risk_tier : RiskTier
  capability : CapabilityRequest
  input : Json

/-- Mirrors `odin_plugin_protocol::PolicyDecision`. -/
inductive PolicyDecision
  | Allow (reason_code : String)
  | Deny (reason_code : String)
  | RequireApproval (reason_code : String) (tier : RiskTier)

/-- Mirrors `odin_plugin_protocol::ActionStatus`. -/
inductive ActionStatus
  | Executed
  | Blocked
  | ApprovalPending
  | Failed
  deriving DecidableEq, Repr

/-- Mirrors `odin_plugin_protocol::ActionOutcome`. -/
structure ActionOutcome where
  request_id : String
  status : ActionStatus
  detail : String
  output : Json

/-- Mirrors `odin_plugin_protocol::DelegationCapability`. -/
structure DelegationCapability where
  id : String
  scope : List String

/-- Mirrors `odin_plugin_protocol::EventEnvelope`. -/
structure EventEnvelope where
  event_id : String
  event_type : String
  task_id : Option String
  request_id : Option String
  project : Option String
  payload : Json

/-! ### Policy engine (`odin-policy-engine`) -/

/-- Mirrors `odin_policy_engine::PolicyError`. -/
inductive PolicyError
  | InvalidRequest (msg : String)
  | Evaluation (msg : String)

/-- The `Display` rendering of `PolicyError` given by its `thiserror`
attributes, used by `From<PolicyError> for RuntimeError`. -/
def PolicyError.toMessage : PolicyError → String
  | .InvalidRequest msg => "invalid request: " ++ msg
  | .Evaluation msg => "evaluation error: " ++ msg

/-- Mirrors `odin_policy_engine::StaticPolicyEngine`.  The `HashSet` of grants
is modelled by a list whose membership plays the role of `HashSet::contains`. -/
structure StaticPolicyEngine where
  allowed : List (String × String × String)
  require_approval_for_destructive : Bool

namespace StaticPolicyEngine

/-- Mirrors `StaticPolicyEngine::is_allowed`. -/
def is_allowed (e : StaticPolicyEngine) (plugin project capability : String) : Bool :=
  (e.allowed.contains (plugin, project, capability)) ||
    (e.allowed.contains (plugin, "*", capability))

/-- Mirrors `<StaticPolicyEngine as PolicyEngine>::decide`. -/
def decide (e : StaticPolicyEngine) (request : ActionRequest) :
    Except PolicyError PolicyDecision :=
  let cap := request.capability
  if strTrim cap.plugin = "" ∨ strTrim cap.capability = "" then
    .error (.InvalidRequest "plugin and capability are required")
  else if !(e.is_allowed cap.plugin cap.project cap.capability) then
    .ok (.Deny "capability_not_granted")
  else if (match request.risk_tier with
            | .destructive => true
            | _ => false) && e.require_approval_for_destructive then
    .ok (.RequireApproval "destructive_requires_approval" .destructive)
  else
    .ok (.Allow "capability_granted")

end StaticPolicyEngine

/-- The grant-set match relation of the policy engine, stated as a proposition:
the request triple matches either exactly or through a `"*"` project wildcard. -/
def GrantMatches (e : StaticPolicyEngine) (cap : CapabilityRequest) : Prop :=
  (cap.plugin, cap.project, cap.capability) ∈ e.allowed ∨
    (cap.plugin, "*", cap.capability) ∈ e.allowed

instance (e : StaticPolicyEngine) (cap : CapabilityRequest) :
    Decidable (GrantMatches e cap) := by
  unfold GrantMatches; infer_instance

/-! ### Stagehand policy (`odin-governance/src/plugins.rs`) -/

/-- Mirrors `odin_governance::plugins::StagehandMode`. -/
inductive StagehandMode
  | ReadObserve
  deriving DecidableEq, Repr

/-- Mirrors `odin_governance::plugins::DomainRule`. -/
structure DomainRule where
  host : String
  allow_subdomains : Bool

/-- Mirrors `odin_governance::plugins::Action`.  The `ReadWorkspace` and
`RunCommand` constructors are omitted: their evaluation arms depend on
filesystem canonicalization and no verified claim mentions them; the match
arms modelled here precede them in the source. -/
inductive Action
  | ObserveUrl (url : String)
  | Login
  | Payment
  | PiiSubmit
  | FileUpload

/-- Mirrors `odin_governance::plugins::PermissionDecision`. -/
inductive PermissionDecision
  | Allow (reason_code : String)
  | Deny (reason_code : String)

/-- Mirrors `odin_governance::plugins::StagehandPolicy`; the `BTreeSet`s are
modelled as lists whose membership plays the role of set membership. -/
structure StagehandPolicy where
  enabled : Bool
  mode : StagehandMode
  allowed_domains : List DomainRule
  allowed_workspaces : List String
  allowed_commands : List String

/-- Mirrors the free function `deny` in `plugins.rs`. -/
def deny (reason_code : String) : PermissionDecision := .Deny reason_code

/-- Mirrors the free function `allow` in `plugins.rs`. -/
def allow (reason_code : String) : PermissionDecision := .Allow reason_code

/-- Mirrors `extract_host` in `plugins.rs`: trim, strip an `https://` or
`http://` scheme (else fail), cut the authority at the first `/`, `?` or `#`,
keep the part after the last `@`, cut at the first `:`, trim and lowercase;
an empty host fails. -/
def extract_host (url : String) : Option String :=
  let trimmed := strTrim url
  match (strStripPre trimmed "https://").orElse (fun _ => strStripPre trimmed "http://") with
  | none => none
  | some without_scheme =>
    let authority :=
      strTrim ((strSplit without_scheme (fun c => c = '/' || c = '?' || c = '#')).headD "")
    let host_port := (strSplit authority (fun c => c = '@')).getLastD ""
    let host := strAsciiLower (strTrim ((strSplit host_port (fun c => c = ':')).headD ""))
    if host = "" then none else some host

/-- Mirrors `domain_matches` in `plugins.rs`. -/
def domain_matches (host : String) (allowed : DomainRule) : Bool :=
  if allowed.allow_subdomains then strEndsWith host ("." ++ allowed.host)
  else host == allowed.host

namespace StagehandPolicy

/-- Mirrors `StagehandPolicy::evaluate_observe_url`. -/
def evaluate_observe_url (p : StagehandPolicy) (url : String) : PermissionDecision :=
  match extract_host url with
  | none => deny "invalid_url"
  | some host =>
    if p.allowed_domains.isEmpty then deny "domain_not_allowlisted"
    else if p.allowed_domains.any (fun allowed => domain_matches host allowed) then
      allow "domain_allowlisted"
    else deny "domain_not_allowlisted"

/-- Mirrors `StagehandPolicy::evaluate` on the modelled actions: the four
sensitive arms come first, then the `_ if !self.enabled` guard, then the
`ObserveUrl` arm. -/
def evaluate (p : StagehandPolicy) : Action → PermissionDecision
  | .Login => deny "action_login_disallowed"
  | .Payment => deny "action_payment_disallowed"
  | .PiiSubmit => deny "action_pii_submit_disallowed"
  | .FileUpload => deny "action_file_upload_disallowed"
  | .ObserveUrl url =>
    if !p.enabled then deny "plugin_disabled" else p.evaluate_observe_url url

end StagehandPolicy

/-! ### Manifest scope gate (`odin-core-runtime/src/lib.rs`) -/

/-- Mirrors `manifest_scope_permits` in `odin-core-runtime/src/lib.rs`. -/
def manifest_scope_permits (requested_scope granted_scope : List String) : Bool :=
  if requested_scope.isEmpty then granted_scope.isEmpty
  else if granted_scope.isEmpty then false
  else requested_scope.all (fun requested =>
    granted_scope.any (fun granted => granted == requested))

/-! ### Risk scan and install gate (`odin-governance/src/{risk_scan,import}.rs`) -/

/-- Mirrors `odin_governance::risk_scan::RiskCategory`. -/
inductive RiskCategory
  | Shell
  | Network
  | Secret
  | Delete
  deriving DecidableEq, Repr

/-- Mirrors `odin_governance::risk_scan::RiskFinding`. -/
structure RiskFinding where
  category : RiskCategory
  pattern : String
  deriving DecidableEq, Repr

/-- Mirrors `SHELL_PATTERNS` in `risk_scan.rs`. -/
def SHELL_PATTERNS : List String :=
  ["curl | sh", "| sh", "| bash", "bash -c", "sh -c"]

/-- Mirrors `NETWORK_PATTERNS` in `risk_scan.rs`. -/
def NETWORK_PATTERNS : List String :=
  ["curl ", "wget ", "invoke-webrequest", "invoke-restmethod", "requests.",
   "http.client", "reqwest::", "net/http", "axios.", "fetch("]

/-- Mirrors `SECRET_PATTERNS` in `risk_scan.rs`. -/
def SECRET_PATTERNS : List String :=
  ["aws_secret", "github_token", "access_token", "secret_key", "api_key",
   "token=", "password="]

/-- Mirrors `DELETE_PATTERNS` in `risk_scan.rs`. -/
def DELETE_PATTERNS : List String :=
  ["rm -rf", "del /f", "shred "]

/-- Mirrors `collect_matches` in `risk_scan.rs`: append one finding per
pattern that occurs in the haystack and is not already recorded for the same
category and pattern. -/
def collect_matches (haystack : String) (patterns : List String)
    (category : RiskCategory) (findings : List RiskFinding) : List RiskFinding :=
  patterns.foldl (fun acc pattern =>
    if strContainsSub haystack pattern &&
        !(acc.any (fun finding => finding.category == category && finding.pattern == pattern)) then
      acc ++ [⟨category, pattern⟩]
    else acc) findings

/-- Mirrors `scan_text` in `risk_scan.rs`. -/
def scan_text (text : String) (findings : List RiskFinding) : List RiskFinding :=
  let normalized := strAsciiLower text
  let findings := collect_matches normalized SHELL_PATTERNS .Shell findings
  let findings := collect_matches normalized NETWORK_PATTERNS .Network findings
  let findings := collect_matches normalized SECRET_PATTERNS .Secret findings
  collect_matches normalized DELETE_PATTERNS .Delete findings

/-- Mirrors `scan_skill_content` in `risk_scan.rs`. -/
def scan_skill_content (scripts : List String) (readme : Option String) : List RiskFinding :=
  let findings := scripts.foldl (fun acc script => scan_text script acc) []
  match readme with
  | some readme_text => scan_text readme_text findings
  | none => findings

/-- Mirrors `odin_plugin_protocol::SkillRecord`. -/
structure SkillRecord where
  name : String
  trust_level : TrustLevel
  source : String
  pinned_version : Option String
  capabilities : List DelegationCapability

/-- Mirrors `odin_governance::import::Ack`. -/
inductive Ack
  | None
  | Accepted
  deriving DecidableEq, Repr

/-- Mirrors `odin_governance::import::InstallGateStatus`. -/
inductive InstallGateStatus
  | Allowed
  | BlockedAckRequired
  deriving DecidableEq, Repr

/-- Mirrors `odin_governance::import::SkillImportCandidate`. -/
structure SkillImportCandidate where
  record : SkillRecord
  scripts : List String
  readme : Option String

/-- Mirrors `odin_governance::import::InstallPlan`. -/
structure InstallPlan where
  status : InstallGateStatus
  findings : List RiskFinding
  reasons : List String

/-- Mirrors `odin_governance::import::ImportGateError`. -/
inductive ImportGateError
  | EmptyName
  deriving DecidableEq, Repr

/-- Mirrors `odin_governance::import::evaluate_install`.  The three
conditional `push` calls are rendered as an in-order concatenation of
conditional singleton lists. -/
def evaluate_install (candidate : SkillImportCandidate) (ack : Ack) :
    Except ImportGateError InstallPlan :=
  if strTrim candidate.record.name = "" then
    .error .EmptyName
  else
    let findings := scan_skill_content candidate.scripts candidate.readme
    let has_secret_finding :=
      findings.any (fun finding => finding.category == RiskCategory.Secret)
    let reasons :=
      (if candidate.record.trust_level = .untrusted then ["untrusted_skill"] else []) ++
      (if !candidate.scripts.isEmpty then ["script_present"] else []) ++
      (if has_secret_finding then ["secret_touching_risk"] else [])
    let ack_required := !reasons.isEmpty
    let status :=
      if ack_required && (match ack with | .None => true | _ => false) then
        InstallGateStatus.BlockedAckRequired
      else
        InstallGateStatus.Allowed
    .ok { status := status, findings := findings, reasons := reasons }

/-! ### Orchestrator runtime (`odin-core-runtime/src/lib.rs`)

The runtime's collaborators are modelled as functions returning `Except`
(`.error` = the Rust call returning `Err`).  Each entry point returns the
list of side effects it performed in program order together with its Rust
return value: a successful audit call appends `Effect.audit`, a successful
ingress write appends `Effect.ingressWrite`, a successful executor call
appends `Effect.execute`.  A single `now` timestamp stands in for the
repeated `now_unix()` calls.  `serde_json::to_string` of a `json!` value
cannot fail and is dropped: the ingress receives the JSON value itself. -/

/-- Mirrors `odin_core_runtime::RuntimeError`. -/
inductive RuntimeError
  | Policy (msg : String)
  | Audit (msg : String)
  | Execution (msg : String)
  | Plugin (msg : String)
  | InvalidInput (msg : String)

/-- Mirrors `From<PolicyError> for RuntimeError` (`value.to_string()`). -/
def RuntimeError.ofPolicy (e : PolicyError) : RuntimeError :=
  .Policy e.toMessage

/-- Mirrors `odin_audit::AuditRecord`. -/
structure AuditRecord where
  ts_unix : Nat
  event_type : String
  request_id : Option String
  task_id : Option String
  project : Option String
  metadata : Json

/-- Mirrors `odin_core_runtime::WatchdogTaskPayload`. -/
structure WatchdogTaskPayload where
  task_type : String
  source_key : Option String
  project : String
  plugin : String
  trigger : Option String

/-- Mirrors `odin_core_runtime::WatchdogTaskEnvelope`. -/
structure WatchdogTaskEnvelope where
  schema_version : Nat
  task_id : String
  task_kind : String
  source : Option String
  created_at : Option String
  payload : WatchdogTaskPayload

/-- Mirrors `odin_core_runtime::PluginCapabilityRef`. -/
structure PluginCapabilityRef where
  id : String
  project : Option String

/-- Mirrors `odin_core_runtime::PluginDirective`. -/
inductive PluginDirective
  | RequestCapability (capability : PluginCapabilityRef) (reason : String)
      (input : Json) (risk_tier : Option RiskTier)
  | EnqueueTask (task_type : String) (project : Option String)
      (reason : Option String) (payload : Json)
  | Noop

/-- One observable side effect of a runtime call. -/
inductive Effect
  | audit (record : AuditRecord)
  | ingressWrite (payload : Json)
  | execute (request : ActionRequest)

/-- Mirrors `odin_core_runtime::OrchestratorRuntime` with its collaborators:
the policy engine field is the `StaticPolicyEngine`, the audit sink mirrors
`AuditSink::record` (its error string is wrapped into `RuntimeError::Audit`
by `From<AuditError>`), the executor mirrors `ActionExecutor::execute`. -/
structure OrchestratorRuntime where
  policy : StaticPolicyEngine
  auditSink : AuditRecord → Except String Unit
  executor : ActionRequest → Except RuntimeError Json

/-- Mirrors the `TaskIngress` trait. -/
structure TaskIngress where
  write_task_payload : Json → Except RuntimeError Unit

/-- Mirrors the `PluginEventRunner` trait. -/
structure PluginEventRunner where
  dispatch_event : String → EventEnvelope → Except RuntimeError (List PluginDirective)

/-- Mirrors `validate_capability` in `odin-core-runtime/src/lib.rs`. -/
def validate_capability (capability : CapabilityRequest) : Except RuntimeError Unit :=
  if strTrim capability.plugin = "" then
    .error (.InvalidInput "plugin is required")
  else if strTrim capability.capability = "" then
    .error (.InvalidInput "capability is required")
  else
    .ok ()

/-- Mirrors `decision_tag` in `odin-core-runtime/src/lib.rs`. -/
def decision_tag : PolicyDecision → String
  | .Allow _ => "allow"
  | .Deny _ => "deny"
  | .RequireApproval _ _ => "require_approval"

/-- Mirrors `parse_watchdog_task`, starting after the `serde_json::from_str`
step (JSON-text decoding is outside the model): the schema-version, task-kind
and payload emptiness validations. -/
def parse_watchdog_task (task : WatchdogTaskEnvelope) :
    Except RuntimeError WatchdogTaskEnvelope :=
  if task.schema_version ≠ 1 then
    .error (.InvalidInput ("unsupported schema_version: " ++ toString task.schema_version))
  else if task.task_kind ≠ "watchdog_poll" then
    .error (.InvalidInput ("unsupported task type: " ++ task.task_kind))
  else if strTrim task.payload.plugin = "" then
    .error (.InvalidInput "watchdog task payload.plugin is required")
  else if strTrim task.payload.project = "" then
    .error (.InvalidInput "watchdog task payload.project is required")
  else if strTrim task.payload.task_type = "" then
    .error (.InvalidInput "watchdog task payload.task_type is required")
  else
    .ok task

/-- Mirrors `build_enqueued_task` in `odin-core-runtime/src/lib.rs`. -/
def build_enqueued_task (origin : WatchdogTaskEnvelope) (sequence : Nat)
    (task_type project : String) (payload : Json) (now : Nat) : Json :=
  .obj [("schema_version", .num 1),
    ("task_id", .str (origin.task_id ++ "-followup-" ++ toString sequence ++ "-" ++
      toString now)),
    ("type", .str task_type),
    ("source", .str "plugin"),
    ("created_at_unix", .num now),
    ("payload", .obj [
      ("project", .str project),
      ("plugin", .str origin.payload.plugin),
      ("task_type", .str task_type),
      ("origin_task_id", .str origin.task_id),
      ("data", payload)])]

namespace OrchestratorRuntime

/-- Mirrors `OrchestratorRuntime::evaluate_policy`: validate, decide, audit a
`policy.decision` record, return the decision. -/
def evaluate_policy (rt : OrchestratorRuntime) (now : Nat) (request : ActionRequest) :
    List Effect × Except RuntimeError PolicyDecision :=
  match validate_capability request.capability with
  | .error e => ([], .error e)
  | .ok _ =>
    match rt.policy.decide request with
    | .error pe => ([], .error (RuntimeError.ofPolicy pe))
    | .ok decision =>
      let record : AuditRecord := {
        ts_unix := now
        event_type := "policy.decision"
        request_id := some request.request_id
        task_id := Option.none
        project := some request.capability.project
        metadata := .obj [("plugin", .str request.capability.plugin),
          ("capability", .str request.capability.capability),
          ("decision", .str (decision_tag decision))] }
      match rt.auditSink record with
      | .error msg => ([], .error (.Audit msg))
      | .ok _ => ([.audit record], .ok decision)

/-- Mirrors `OrchestratorRuntime::handle_action`. -/
def handle_action (rt : OrchestratorRuntime) (now : Nat) (request : ActionRequest) :
    List Effect × Except RuntimeError ActionOutcome :=
  match rt.evaluate_policy now request with
  | (tr, .error e) => (tr, .error e)
  | (tr, .ok (.Deny reason_code)) =>
    (tr, .ok ⟨request.request_id, .Blocked, reason_code, .null⟩)
  | (tr, .ok (.RequireApproval reason_code _)) =>
    (tr, .ok ⟨request.request_id, .ApprovalPending, reason_code, .null⟩)
  | (tr, .ok (.Allow _)) =>
    match rt.executor request with
    | .error e => (tr, .error e)
    | .ok output =>
      let record : AuditRecord := {
        ts_unix := now
        event_type := "action.executed"
        request_id := some request.request_id
        task_id := Option.none
        project := some request.capability.project
        metadata := .obj [("plugin", .str request.capability.plugin),
          ("capability", .str request.capability.capability)] }
      match rt.auditSink record with
      | .error msg => (tr ++ [.execute request], .error (.Audit msg))
      | .ok _ => (tr ++ [.execute request, .audit record],
          .ok ⟨request.request_id, .Executed, "executed", output⟩)

/-- The body of the directive loop of `handle_watchdog_task`, for one
directive at position `idx`. -/
def handle_directive (rt : OrchestratorRuntime) (ingress : TaskIngress)
    (task : WatchdogTaskEnvelope) (now idx : Nat) :
    PluginDirective → List Effect × Except RuntimeError (Option ActionOutcome)
  | .RequestCapability capability reason input risk_tier =>
    let project := capability.project.getD task.payload.project
    let request : ActionRequest := {
      request_id := task.task_id ++ "-" ++ toString idx ++ "-cap"
      risk_tier := risk_tier.getD .safe
      capability := {
        plugin := task.payload.plugin
        project := project
        capability := capability.id
        scope := ["project"]
        reason := if strTrim reason = "" then "plugin requested capability" else reason }
      input := input }
    match rt.handle_action now request with
    | (tr, .error e) => (tr, .error e)
    | (tr, .ok outcome) => (tr, .ok (some outcome))
  | .EnqueueTask task_type project reason payload =>
    if strTrim task_type = "" then
      ([], .error (.InvalidInput "enqueue_task requires non-empty task_type"))
    else
      let project := project.getD task.payload.project
      let request : ActionRequest := {
        request_id := task.task_id ++ "-" ++ toString idx ++ "-enqueue"
        risk_tier := .sensitive
        capability := {
          plugin := task.payload.plugin
          project := project
          capability := "task.enqueue"
          scope := ["project"]
          reason := reason.getD ("plugin enqueue request for " ++ task_type) }
        input := .obj [("task_type", .str task_type),
          ("origin_task_id", .str task.task_id)] }
      match rt.evaluate_policy now request with
      | (tr, .error e) => (tr, .error e)
      | (tr, .ok (.Deny reason_code)) =>
        (tr, .ok (some ⟨request.request_id, .Blocked, reason_code, .null⟩))
      | (tr, .ok (.RequireApproval reason_code _)) =>
        (tr, .ok (some ⟨request.request_id, .ApprovalPending, reason_code, .null⟩))
      | (tr, .ok (.Allow _)) =>
        let queued := build_enqueued_task task idx task_type project payload now
        match ingress.write_task_payload queued with
        | .error e => (tr, .error e)
        | .ok _ =>
          let record : AuditRecord := {
            ts_unix := now
            event_type := "task.enqueued"
            request_id := some request.request_id
            task_id := some task.task_id
            project := some project
            metadata := .obj [("plugin", .str task.payload.plugin),
              ("task_type", .str task_type),
              ("origin_task_id", .str task.task_id)] }
          match rt.auditSink record with
          | .error msg => (tr ++ [.ingressWrite queued], .error (.Audit msg))
          | .ok _ =>
            (tr ++ [.ingressWrite queued, .audit record],
             .ok (some ⟨request.request_id, .Executed, "task_enqueued",
               .obj [("task_type", .str task_type), ("project", .str project)]⟩))
  | .Noop =>
    let record : AuditRecord := {
      ts_unix := now
      event_type := "plugin.noop"
      request_id := Option.none
      task_id := some task.task_id
      project := some task.payload.project
      metadata := .obj [("plugin", .str task.payload.plugin)] }
    match rt.auditSink record with
    | .error msg => ([], .error (.Audit msg))
    | .ok _ => ([.audit record], .ok Option.none)

/-- The directive loop of `handle_watchdog_task`: directives processed in
emission order with their enumeration index; the first failing directive
aborts the loop, returning only the error while keeping earlier effects. -/
def process_directives (rt : OrchestratorRuntime) (ingress : TaskIngress)
    (task : WatchdogTaskEnvelope) (now : Nat) :
    List PluginDirective → Nat → List Effect × Except RuntimeError (List ActionOutcome)
  | [], _ => ([], .ok [])
  | d :: rest, idx =>
    match rt.handle_directive ingress task now idx d with
    | (tr, .error e) => (tr, .error e)
    | (tr, .ok out) =>
      match rt.process_directives ingress task now rest (idx + 1) with
      | (tr2, .error e) => (tr ++ tr2, .error e)
      | (tr2, .ok outs) => (tr ++ tr2, .ok (out.toList ++ outs))

/-- The `task.received` event envelope built by `handle_watchdog_task`. -/
def received_event (task : WatchdogTaskEnvelope) (now : Nat) : EventEnvelope :=
  { event_id := "evt-" ++ task.task_id ++ "-" ++ toString now
    event_type := "task.received"
    task_id := some task.task_id
    request_id := Option.none
    project := some task.payload.project
    payload := .obj [("task_type", .str task.payload.task_type),
      ("source_key", jsonOfOptStr task.payload.source_key),
      ("trigger", jsonOfOptStr task.payload.trigger)] }

/-- Mirrors `OrchestratorRuntime::handle_watchdog_task`: parse and validate
the envelope, dispatch the `task.received` event to the plugin runner, then
process the returned directives in order. -/
def handle_watchdog_task (rt : OrchestratorRuntime) (runner : PluginEventRunner)
    (ingress : TaskIngress) (now : Nat) (raw_task : WatchdogTaskEnvelope) :
    List Effect × Except RuntimeError (List ActionOutcome) :=
  match parse_watchdog_task raw_task with
  | .error e => ([], .error e)
  | .ok task =>
    match runner.dispatch_event task.payload.plugin (received_event task now) with
    | .error e => ([], .error e)
    | .ok directives => rt.process_directives ingress task now directives 0

end OrchestratorRuntime

/-! ### Migration export / verify (`odin-migration/src/{export,checksum,verify}.rs`)

A bundle directory is modelled as an association list from bundle-relative
path (forward-slash normalized) to file contents: `payloadFiles` holds the
files collected by `collect_payload_files` (the section trees plus
`manifest.json`), `checksums` the parsed entries of `checksums.sha256`.
The SHA-256 digest is abstracted as a function parameter `hash`; the
round-trip claim's mutation half holds under the standard idealization that
the digest is injective (collision-free) on the inputs at hand.  Directory
existence checks, path-overlap checks, the sorted directory walk and the
textual line format of `checksums.sha256` are filesystem/serialization
concerns outside the model; none of them affects which file mismatches. -/

/-- The fixed `manifest.json` contents returned by `manifest_json` in
`export.rs`. -/
def manifest_json : String :=
  "\x7b\n  \"schema_version\": 1,\n  \"user_data_model_version\": 1,\n  \"skills\": \x7b\x7d,\n  \"learnings\": \x7b\x7d,\n  \"runtime\": \x7b\x7d,\n  \"checkpoints\": \x7b\x7d,\n  \"events\": \x7b\x7d,\n  \"opaque\": \x7b\x7d,\n  \"quarantine\": \x7b\x7d,\n  \"meta\": \x7b\x7d\n\x7d\n"

/-- A migration bundle: payload files (section files plus `manifest.json`)
and the checksum entries, each an association list keyed by relative path. -/
structure Bundle where
  payloadFiles : List (String × String)
  checksums : List (String × String)

/-- Mirrors `checksum::write_checksums_file` at the entry level: one
`(path, digest)` entry per written file. -/
def write_checksums_entries (hash : String → String)
    (files : List (String × String)) : List (String × String) :=
  files.map (fun pc => (pc.1, hash pc.2))

/-- Mirrors `export::write_bundle` at the bundle level: refuse an export with
no mapped section files, copy the section files (their paths already carry
the `<section>/` prefix), write the fixed `manifest.json`, and record one
checksum entry per written file, the manifest included. -/
def write_bundle (hash : String → String) (sectionFiles : List (String × String)) :
    Except String Bundle :=
  if sectionFiles.isEmpty then
    .error "export produced no mapped files from source roots"
  else
    let written := sectionFiles ++ [("manifest.json", manifest_json)]
    .ok { payloadFiles := written, checksums := write_checksums_entries hash written }

/-- Association-list lookup, mirroring `BTreeMap::get` on the checksum map. -/
def lookupEntry (entries : List (String × String)) (path : String) : Option String :=
  (entries.find? (fun kv => kv.1 = path)).map (·.2)

/-- The final loop of `verify::verify_checksums`: recompute each payload
file's digest and compare it with the recorded entry, failing at the first
mismatch with the mismatch message for that path. -/
def check_files (hash : String → String) (entries : List (String × String)) :
    List (String × String) → Except String Unit
  | [] => .ok ()
  | (path, contents) :: rest =>
    match lookupEntry entries path with
    | none => .error "checksum map should include path after set comparison"
    | some expected =>
      let actual := hash contents
      if actual ≠ expected then
        .error ("checksum mismatch for bundle file " ++ path ++ ": expected " ++
          expected ++ ", got " ++ actual ++
          ". Bundle may be tampered; re-run migrate export.")
      else check_files hash entries rest

/-- Mirrors `verify::verify_checksums` over a bundle with parsed checksum
entries: require a `manifest.json` entry, require the entry path set to equal
the payload path set (reporting first the payload files missing from the
checksums, then the unexpected entries), then recompute every digest. -/
def verify_checksums (hash : String → String) (b : Bundle) : Except String Unit :=
  if lookupEntry b.checksums "manifest.json" = none then
    .error "checksums.sha256 is missing required manifest entry: manifest.json"
  else
    let payload_paths := b.payloadFiles.map (·.1)
    let expected_paths := b.checksums.map (·.1)
    let missing := payload_paths.filter (fun p => !(expected_paths.contains p))
    if !missing.isEmpty then
      .error ("checksums.sha256 is missing entries for bundle file(s): " ++
        String.intercalate ", " missing)
    else
      let unexpected := expected_paths.filter (fun p => !(payload_paths.contains p))
      if !unexpected.isEmpty then
        .error ("checksums.sha256 contains path(s) that are not manifest/copied files: " ++
          String.intercalate ", " unexpected)
      else
        check_files hash b.checksums b.payloadFiles

/-- Flip bytes of the file at `path`: replace its contents. -/
def mutate_file (b : Bundle) (path : String) (contents : String) : Bundle :=
  { b with payloadFiles :=
      b.payloadFiles.map (fun pc => if pc.1 = path then (pc.1, contents) else pc) }

/-! ### Concrete fixtures used by witnesses -/

/-- An audit sink that accepts every record. -/
def sinkOk : AuditRecord → Except String Unit := fun _ => .ok ()

/-- A task ingress that accepts every payload. -/
def ingressOk : TaskIngress := ⟨fun _ => .ok ()⟩

/-- A parsed watchdog task envelope for plugin `plug` in project `proj`. -/
def taskW : WatchdogTaskEnvelope :=
  ⟨1, "t1", "watchdog_poll", Option.none, Option.none,
    ⟨"poll", Option.none, "proj", "plug", Option.none⟩⟩

/-- A runtime whose policy grants `(plug, proj, task.enqueue)`. -/
def rtW : OrchestratorRuntime :=
  ⟨⟨[("plug", "proj", "task.enqueue")], false⟩, sinkOk, fun _ => .ok .null⟩

/-- A plugin event runner that answers every event with a fixed directive
list. -/
def runnerOf (directives : List PluginDirective) : PluginEventRunner :=
  ⟨fun _ _ => .ok directives⟩

end Odin

namespace Odin

/-! ### Policy engine lemmas and claims -/

lemma is_allowed_iff (e : StaticPolicyEngine) (cap : CapabilityRequest) :
    e.is_allowed cap.plugin cap.project cap.capability = true ↔ GrantMatches e cap := by
  simp [StaticPolicyEngine.is_allowed, GrantMatches, List.elem_iff]

lemma decide_error_of_empty (e : StaticPolicyEngine) (r : ActionRequest)
    (h : strTrim r.capability.plugin = "" ∨ strTrim r.capability.capability = "") :
    e.decide r = .error (.InvalidRequest "plugin and capability are required") := by
  simp [StaticPolicyEngine.decide, h]

lemma decide_deny_of_not_granted (e : StaticPolicyEngine) (r : ActionRequest)
    (hp : strTrim r.capability.plugin ≠ "") (hc : strTrim r.capability.capability ≠ "")
    (hg : ¬ GrantMatches e r.capability) :
    e.decide r = .ok (.Deny "capability_not_granted") := by
  have hall : e.is_allowed r.capability.plugin r.capability.project r.capability.capability
      = false := by
    rw [← Bool.not_eq_true, is_allowed_iff]; exact hg
  simp [StaticPolicyEngine.decide, hp, hc, hall]

lemma decide_approval_of_destructive (e : StaticPolicyEngine) (r : ActionRequest)
    (hp : strTrim r.capability.plugin ≠ "") (hc : strTrim r.capability.capability ≠ "")
    (hg : GrantMatches e r.capability) (hd : r.risk_tier = .destructive)
    (hf : e.require_approval_for_destructive = true) :
    e.decide r = .ok (.RequireApproval "destructive_requires_approval" .destructive) := by
  have hall := (is_allowed_iff e r.capability).mpr hg
  simp [StaticPolicyEngine.decide, hp, hc, hall, hd, hf]

lemma decide_allow_otherwise (e : StaticPolicyEngine) (r : ActionRequest)
    (hp : strTrim r.capability.plugin ≠ "") (hc : strTrim r.capability.capability ≠ "")
    (hg : GrantMatches e r.capability)
    (hnd : r.risk_tier ≠ .destructive ∨ e.require_approval_for_destructive = false) :
    e.decide r = .ok (.Allow "capability_granted") := by
  have hall := (is_allowed_iff e r.capability).mpr hg
  rcases hnd with hnd | hnd
  · cases htier : r.risk_tier <;>
      simp_all [StaticPolicyEngine.decide, hp, hc, hall]
  · cases htier : r.risk_tier <;>
      simp [StaticPolicyEngine.decide, hp, hc, hall, hnd, htier]

/-- C1: `StaticPolicyEngine::decide` fails with an invalid-request error when the
request's plugin or capability is empty after trim; otherwise it denies with
`capability_not_granted` when neither `(plugin, project, capability)` nor
`(plugin, "*", capability)` is granted (in particular an ungranted destructive
request is denied, since the grant check precedes the destructive check);
otherwise a destructive request under the require-approval flag yields
`RequireApproval{destructive_requires_approval, tier=destructive}`; otherwise
it allows with `capability_granted`. -/
theorem policy_decide_cases (e : StaticPolicyEngine) (r : ActionRequest) :
    ((strTrim r.capability.plugin = "" ∨ strTrim r.capability.capability = "") →
      e.decide r = .error (.InvalidRequest "plugin and capability are required")) ∧
    (strTrim r.capability.plugin ≠ "" → strTrim r.capability.capability ≠ "" →
      ¬ GrantMatches e r.capability →
      e.decide r = .ok (.Deny "capability_not_granted")) ∧
    (strTrim r.capability.plugin ≠ "" → strTrim r.capability.capability ≠ "" →
      GrantMatches e r.capability → r.risk_tier = .destructive →
      e.require_approval_for_destructive = true →
      e.decide r = .ok (.RequireApproval "destructive_requires_approval" .destructive)) ∧
    (strTrim r.capability.plugin ≠ "" → strTrim r.capability.capability ≠ "" →
      GrantMatches e r.capability →
      (r.risk_tier ≠ .destructive ∨ e.require_approval_for_destructive = false) →
      e.decide r = .ok (.Allow "capability_granted")) :=
  ⟨fun h => decide_error_of_empty e r h,
   fun hp hc hg => decide_deny_of_not_granted e r hp hc hg,
   fun hp hc hg hd hf => decide_approval_of_destructive e r hp hc hg hd hf,
   fun hp hc hg hnd => decide_allow_otherwise e r hp hc hg hnd⟩

/-- C1 witness: with the single grant `("p","proj","c")` and the approval flag
set, an ungranted destructive request (project mismatch) is denied with
`capability_not_granted`, not sent for approval. -/
theorem policy_decide_cases_witness :
    StaticPolicyEngine.decide ⟨[("p", "proj", "c")], true⟩
      ⟨"r1", .destructive, ⟨"p", "other", "c", [], "why"⟩, .null⟩ =
      .ok (.Deny "capability_not_granted") :=
  (policy_decide_cases ⟨[("p", "proj", "c")], true⟩
      ⟨"r1", .destructive, ⟨"p", "other", "c", [], "why"⟩, .null⟩).2.1
    (by decide) (by decide) (by decide)

/-- C10: grant matching compares untrimmed strings.  Whenever every grant in
the engine's table has trim-fixed plugin and capability components and the
request's plugin or capability carries surrounding whitespace (is not
trim-fixed), `decide` does not error (given the trimmed names are non-empty)
and returns `Deny{capability_not_granted}`: padded names never match a grant. -/
theorem policy_decide_padded_names_never_match (e : StaticPolicyEngine) (r : ActionRequest)
    (hgrants : ∀ g ∈ e.allowed, strTrim g.1 = g.1 ∧ strTrim g.2.2 = g.2.2)
    (hpad : strTrim r.capability.plugin ≠ r.capability.plugin ∨
      strTrim r.capability.capability ≠ r.capability.capability)
    (hp : strTrim r.capability.plugin ≠ "") (hc : strTrim r.capability.capability ≠ "") :
    e.decide r = .ok (.Deny "capability_not_granted") := by
  apply decide_deny_of_not_granted e r hp hc
  intro hg
  have hfix : strTrim r.capability.plugin = r.capability.plugin ∧
      strTrim r.capability.capability = r.capability.capability := by
    rcases hg with hmem | hmem
    · exact hgrants _ hmem
    · exact hgrants _ hmem
  rcases hpad with hpad | hpad
  · exact hpad hfix.1
  · exact hpad hfix.2

/-- C10 witness: with the single grant `("plug","proj","repo.read")`, a request
for capability `" repo.read"` (leading space) is denied, not allowed. -/
theorem policy_decide_padded_names_never_match_witness :
    StaticPolicyEngine.decide ⟨[("plug", "proj", "repo.read")], false⟩
      ⟨"r1", .safe, ⟨"plug", "proj", " repo.read", [], "why"⟩, .null⟩ =
      .ok (.Deny "capability_not_granted") :=
  policy_decide_padded_names_never_match ⟨[("plug", "proj", "repo.read")], false⟩
    ⟨"r1", .safe, ⟨"plug", "proj", " repo.read", [], "why"⟩, .null⟩
    (by decide) (by decide) (by decide) (by decide)

/-! ### Stagehand policy claims -/

/-- C2: every stagehand policy value — whatever its enabled flag or allowlist
contents — unconditionally denies the four sensitive actions with their
per-action reason codes; the sensitive-action arms precede the
`plugin_disabled` arm, so the sensitive deny takes precedence even when the
plugin is disabled. -/
theorem stagehand_sensitive_actions_always_denied (p : StagehandPolicy) :
    p.evaluate .Login = .Deny "action_login_disallowed" ∧
    p.evaluate .Payment = .Deny "action_payment_disallowed" ∧
    p.evaluate .PiiSubmit = .Deny "action_pii_submit_disallowed" ∧
    p.evaluate .FileUpload = .Deny "action_file_upload_disallowed" :=
  ⟨rfl, rfl, rfl, rfl⟩

/-- C4: a non-wildcard domain rule matches exactly its host; a wildcard rule
matches exactly the hosts ending in `"." ++ host`, so the apex host itself
never matches a wildcard rule.  Moreover, with the policy enabled, `ObserveUrl`
on a URL with an extractable host but an empty domain allowlist denies with
`domain_not_allowlisted`, and a URL with neither an `http://` nor an
`https://` scheme denies with `invalid_url`. -/
theorem stagehand_domain_match_spec :
    (∀ host h, domain_matches host ⟨h, false⟩ = true ↔ host = h) ∧
    (∀ host h, domain_matches host ⟨h, true⟩ = true ↔ ("." ++ h).data <:+ host.data) ∧
    (∀ h, domain_matches h ⟨h, true⟩ = false) ∧
    (∀ (p : StagehandPolicy) url host, p.enabled = true → extract_host url = some host →
      p.allowed_domains = [] →
      p.evaluate (.ObserveUrl url) = .Deny "domain_not_allowlisted") ∧
    (∀ (p : StagehandPolicy) url, p.enabled = true →
      strStripPre (strTrim url) "https://" = none →
      strStripPre (strTrim url) "http://" = none →
      p.evaluate (.ObserveUrl url) = .Deny "invalid_url") := by
  refine ⟨?_, ?_, ?_, ?_, ?_⟩
  · intro host h
    simp [domain_matches]
  · intro host h
    simp [domain_matches, strEndsWith, List.isSuffixOf_iff_suffix]
  · intro h
    have hns : ¬ '.' :: h.data <:+ h.data := by
      intro hsuf
      have := hsuf.length_le
      simp at this
    simp only [domain_matches, strEndsWith, if_true, String.data_append, String.data]
    rw [← Bool.not_eq_true, List.isSuffixOf_iff_suffix]
    simpa using hns
  · intro p url host hen hhost hdom
    simp [StagehandPolicy.evaluate, hen, StagehandPolicy.evaluate_observe_url, hhost,
      hdom, deny]
  · intro p url hen h1 h2
    simp [StagehandPolicy.evaluate, hen, StagehandPolicy.evaluate_observe_url,
      extract_host, h1, h2, Option.orElse, deny]

/-- C4 witness: the apex `example.com` does not match the wildcard rule
`*.example.com`, an enabled policy with an empty allowlist denies
`https://example.com` with `domain_not_allowlisted`, and a scheme-less URL is
denied as `invalid_url`. -/
theorem stagehand_domain_match_spec_witness :
    domain_matches "example.com" ⟨"example.com", true⟩ = false ∧
    StagehandPolicy.evaluate ⟨true, .ReadObserve, [], [], []⟩
      (.ObserveUrl "https://example.com") = .Deny "domain_not_allowlisted" ∧
    StagehandPolicy.evaluate ⟨true, .ReadObserve, [⟨"example.com", true⟩], [], []⟩
      (.ObserveUrl "ftp://example.com") = .Deny "invalid_url" :=
  ⟨stagehand_domain_match_spec.2.2.1 "example.com",
   stagehand_domain_match_spec.2.2.2.1 ⟨true, .ReadObserve, [], [], []⟩
     "https://example.com" "example.com" rfl (by decide) rfl,
   stagehand_domain_match_spec.2.2.2.2 ⟨true, .ReadObserve, [⟨"example.com", true⟩], [], []⟩
     "ftp://example.com" rfl (by decide) (by decide)⟩

/-! ### Manifest scope gate claim -/

/-- C3: the manifest scope gate permits iff the requested scope is non-empty
and every requested entry equals some granted entry, while an empty requested
scope is permitted exactly when the granted scope is empty too; equivalently,
it permits iff requested ⊆ granted under string equality together with the
extra rule that empty requested requires empty granted. -/
theorem manifest_scope_permits_spec (R G : List String) :
    (manifest_scope_permits R G = true ↔
      ((R ≠ [] ∧ ∀ r ∈ R, ∃ g ∈ G, g = r) ∨ (R = [] ∧ G = []))) ∧
    (manifest_scope_permits R G = true ↔
      ((∀ r ∈ R, r ∈ G) ∧ (R = [] → G = []))) := by
  constructor
  · cases R with
    | nil => simp [manifest_scope_permits]
    | cons a t =>
      cases G with
      | nil =>
        simp only [manifest_scope_permits, List.isEmpty_cons, List.isEmpty_nil]
        simp
        exact ⟨a, fun h => absurd rfl h⟩
      | cons b u =>
        simp only [manifest_scope_permits, List.isEmpty_cons, Bool.false_eq_true,
          if_false, List.all_eq_true, List.any_eq_true]
        constructor
        · intro h
          refine Or.inl ⟨by simp, ?_⟩
          intro r hr
          obtain ⟨g, hg, hge⟩ := h r hr
          exact ⟨g, hg, beq_iff_eq.mp hge⟩
        · rintro (⟨-, h⟩ | ⟨habs, -⟩)
          · intro r hr
            obtain ⟨g, hg, hge⟩ := h r hr
            exact ⟨g, hg, beq_iff_eq.mpr hge⟩
          · exact absurd habs (by simp)
  · cases R with
    | nil => simp [manifest_scope_permits]
    | cons a t =>
      cases G with
      | nil =>
        simp only [manifest_scope_permits, List.isEmpty_cons, List.isEmpty_nil]
        simp
        exact ⟨a, fun h => absurd rfl h⟩
      | cons b u =>
        simp only [manifest_scope_permits, List.isEmpty_cons, Bool.false_eq_true,
          if_false, List.all_eq_true, List.any_eq_true]
        constructor
        · intro h
          refine ⟨?_, by simp⟩
          intro r hr
          obtain ⟨g, hg, hge⟩ := h r hr
          simpa [← (beq_iff_eq.mp hge)] using hg
        · rintro ⟨hsub, -⟩
          intro r hr
          exact ⟨r, hsub r hr, by simp⟩

/-! ### Install gate claim -/

/-- C8: `evaluate_install` errors exactly when the candidate name is empty
after trim; otherwise it returns a plan whose findings are the risk scan and
whose reasons contain `untrusted_skill` iff the trust level is untrusted,
`script_present` iff the scripts list is non-empty, and
`secret_touching_risk` iff the scan has a secret-category finding; the status
is `BlockedAckRequired` iff the reasons are non-empty and the ack is `None`,
and `Allowed` otherwise. -/
theorem evaluate_install_spec (candidate : SkillImportCandidate) (ack : Ack) :
    ((∃ err, evaluate_install candidate ack = .error err) ↔
      strTrim candidate.record.name = "") ∧
    (strTrim candidate.record.name ≠ "" →
      ∃ plan, evaluate_install candidate ack = .ok plan ∧
        plan.findings = scan_skill_content candidate.scripts candidate.readme ∧
        ("untrusted_skill" ∈ plan.reasons ↔ candidate.record.trust_level = .untrusted) ∧
        ("script_present" ∈ plan.reasons ↔ candidate.scripts ≠ []) ∧
        ("secret_touching_risk" ∈ plan.reasons ↔
          ∃ f ∈ scan_skill_content candidate.scripts candidate.readme,
            f.category = .Secret) ∧
        (plan.status = .BlockedAckRequired ↔ (plan.reasons ≠ [] ∧ ack = .None)) ∧
        (plan.status = .Allowed ↔ ¬(plan.reasons ≠ [] ∧ ack = .None))) := by
  constructor
  · constructor
    · rintro ⟨err, herr⟩
      by_contra hname
      simp [evaluate_install, hname] at herr
    · intro hname
      exact ⟨.EmptyName, by simp [evaluate_install, hname]⟩
  · intro hname
    cases hrun : evaluate_install candidate ack with
    | error err =>
      exact absurd hrun (by simp [evaluate_install, hname])
    | ok plan =>
      simp only [evaluate_install, if_neg hname] at hrun
      injection hrun with hplan
      subst hplan
      refine ⟨_, rfl, rfl, ?_, ?_, ?_, ?_, ?_⟩
      · by_cases ht : candidate.record.trust_level = .untrusted <;>
          by_cases hs : candidate.scripts.isEmpty <;>
          by_cases hsec : (scan_skill_content candidate.scripts candidate.readme).any
            (fun finding => finding.category == RiskCategory.Secret) <;>
          simp_all
      · by_cases ht : candidate.record.trust_level = .untrusted <;>
          by_cases hs : candidate.scripts.isEmpty <;>
          by_cases hsec : (scan_skill_content candidate.scripts candidate.readme).any
            (fun finding => finding.category == RiskCategory.Secret) <;>
          simp_all [List.isEmpty_iff]
      · by_cases ht : candidate.record.trust_level = .untrusted <;>
          by_cases hs : candidate.scripts.isEmpty <;>
          by_cases hsec : (scan_skill_content candidate.scripts candidate.readme).any
            (fun finding => finding.category == RiskCategory.Secret) <;>
          simp_all [List.any_eq_true]
      · by_cases ht : candidate.record.trust_level = .untrusted <;>
          by_cases hs : candidate.scripts.isEmpty <;>
          by_cases hsec : (scan_skill_content candidate.scripts candidate.readme).any
            (fun finding => finding.category == RiskCategory.Secret) <;>
          cases ack <;> simp_all
      · by_cases ht : candidate.record.trust_level = .untrusted <;>
          by_cases hs : candidate.scripts.isEmpty <;>
          by_cases hsec : (scan_skill_content candidate.scripts candidate.readme).any
            (fun finding => finding.category == RiskCategory.Secret) <;>
          cases ack <;> simp_all

/-- C8 witness: an untrusted candidate named `"s"` with one script containing
a secret pattern and no acknowledgment is blocked pending acknowledgment, with
all three reasons present. -/
theorem evaluate_install_spec_witness :
    strTrim (SkillRecord.mk "s" .untrusted "local:x" Option.none [] : SkillRecord).name ≠ "" ∧
    ∃ plan,
      evaluate_install ⟨⟨"s", .untrusted, "local:x", Option.none, []⟩, ["api_key=1"], Option.none⟩
          Ack.None = .ok plan ∧
      plan.status = .BlockedAckRequired ∧
      plan.reasons = ["untrusted_skill", "script_present", "secret_touching_risk"] := by
  refine ⟨by decide, ?_⟩
  obtain ⟨plan, hrun, -, -, -, -, hstat, -⟩ :=
    (evaluate_install_spec
      ⟨⟨"s", .untrusted, "local:x", Option.none, []⟩, ["api_key=1"], Option.none⟩
      Ack.None).2 (by decide)
  have hval : evaluate_install
      ⟨⟨"s", .untrusted, "local:x", Option.none, []⟩, ["api_key=1"], Option.none⟩ Ack.None =
      .ok ⟨.BlockedAckRequired, [⟨.Secret, "api_key"⟩],
        ["untrusted_skill", "script_present", "secret_touching_risk"]⟩ := rfl
  rw [hval] at hrun
  injection hrun with h
  refine ⟨plan, ?_, ?_, ?_⟩
  · rw [hval, h]
  · rw [← h]
  · rw [← h]

/-! ### Watchdog task parsing (C5) -/

/-- C5 counterexample: the claim states that parsing fails whenever any string
field of the payload — including `source_key` and `trigger` — is empty after
trim, but `parse_watchdog_task` validates only `plugin`, `project` and
`task_type`: an envelope whose `source_key` is `""` and whose `trigger` is
`" "` (both empty after trim) parses successfully. -/
theorem parse_watchdog_task_accepts_empty_optional_fields :
    parse_watchdog_task ⟨1, "t1", "watchdog_poll", Option.none, Option.none,
        ⟨"poll", some "", "proj", "plug", some " "⟩⟩ =
      .ok ⟨1, "t1", "watchdog_poll", Option.none, Option.none,
        ⟨"poll", some "", "proj", "plug", some " "⟩⟩ ∧
    strTrim "" = "" ∧ strTrim " " = "" :=
  ⟨rfl, rfl, rfl⟩

/-- C5 (amended): `parse_watchdog_task` accepts an envelope iff
`schema_version = 1`, the task kind is `"watchdog_poll"`, and the payload's
`plugin`, `project` and `task_type` are non-empty after trim — the optional
`source_key` and `trigger` fields are not checked; every rejected envelope
produces an invalid-input error, and `handle_watchdog_task` forwards exactly
that invalid-input error with no side effects. -/
theorem parse_watchdog_task_spec (t : WatchdogTaskEnvelope) :
    (parse_watchdog_task t = .ok t ↔
      (t.schema_version = 1 ∧ t.task_kind = "watchdog_poll" ∧
        strTrim t.payload.plugin ≠ "" ∧ strTrim t.payload.project ≠ "" ∧
        strTrim t.payload.task_type ≠ "")) ∧
    (¬ (t.schema_version = 1 ∧ t.task_kind = "watchdog_poll" ∧
        strTrim t.payload.plugin ≠ "" ∧ strTrim t.payload.project ≠ "" ∧
        strTrim t.payload.task_type ≠ "") →
      ∃ msg, parse_watchdog_task t = .error (.InvalidInput msg)) ∧
    (∀ (rt : OrchestratorRuntime) (runner : PluginEventRunner) (ingress : TaskIngress)
        (now : Nat) (msg : String),
      parse_watchdog_task t = .error (.InvalidInput msg) →
      rt.handle_watchdog_task runner ingress now t = ([], .error (.InvalidInput msg))) := by
  refine ⟨?_, ?_, ?_⟩
  · unfold parse_watchdog_task
    split_ifs with h1 h2 h3 h4 h5 <;> simp_all
  · intro hfail
    unfold parse_watchdog_task
    split_ifs with h1 h2 h3 h4 h5
    · exact ⟨_, rfl⟩
    · exact ⟨_, rfl⟩
    · exact ⟨_, rfl⟩
    · exact ⟨_, rfl⟩
    · exact ⟨_, rfl⟩
    · exact absurd ⟨not_ne_iff.mp h1, not_ne_iff.mp h2, h3, h4, h5⟩ hfail
  · intro rt runner ingress now msg hmsg
    simp [OrchestratorRuntime.handle_watchdog_task, hmsg]

/-- C5 witness: an envelope with task kind `"other"` is rejected, and
`handle_watchdog_task` surfaces the same invalid-input error with no side
effects. -/
theorem parse_watchdog_task_spec_witness :
    OrchestratorRuntime.handle_watchdog_task rtW (runnerOf []) ingressOk 0
      ⟨1, "t1", "other", Option.none, Option.none,
        ⟨"poll", Option.none, "proj", "plug", Option.none⟩⟩ =
      ([], .error (.InvalidInput "unsupported task type: other")) :=
  (parse_watchdog_task_spec
    ⟨1, "t1", "other", Option.none, Option.none,
      ⟨"poll", Option.none, "proj", "plug", Option.none⟩⟩).2.2
    rtW (runnerOf []) ingressOk 0 "unsupported task type: other" rfl

/-! ### Watchdog enqueue path (C6) -/

/-- C6: processing an `EnqueueTask` directive with a non-empty `task_type` on
which the policy decides Allow hands exactly one payload to the task ingress —
the JSON built by `build_enqueued_task`, with `schema_version = 1`,
`type = task_type`, `source = "plugin"`, `created_at_unix` set, and a payload
carrying `project`, `plugin`, `task_type`, `origin_task_id` and the
directive's payload as `data` — with the ingress write strictly before the
`task.enqueued` audit record, and appends the outcome
`Executed{detail="task_enqueued", output={task_type, project}}`. -/
theorem watchdog_enqueue_allow_spec (rt : OrchestratorRuntime) (ingress : TaskIngress)
    (task : WatchdogTaskEnvelope) (now idx : Nat) (task_type : String)
    (projectOpt reasonOpt : Option String) (payload : Json)
    (project : String) (hproj : project = projectOpt.getD task.payload.project)
    (request : ActionRequest)
    (hreq : request = {
      request_id := task.task_id ++ "-" ++ toString idx ++ "-enqueue"
      risk_tier := .sensitive
      capability := {
        plugin := task.payload.plugin
        project := project
        capability := "task.enqueue"
        scope := ["project"]
        reason := reasonOpt.getD ("plugin enqueue request for " ++ task_type) }
      input := .obj [("task_type", .str task_type),
        ("origin_task_id", .str task.task_id)] })
    (queued : Json) (hq : queued = build_enqueued_task task idx task_type project payload now)
    (policyRecord : AuditRecord) (hpr : policyRecord = {
      ts_unix := now
      event_type := "policy.decision"
      request_id := some request.request_id
      task_id := Option.none
      project := some project
      metadata := .obj [("plugin", .str task.payload.plugin),
        ("capability", .str "task.enqueue"), ("decision", .str "allow")] })
    (enqRecord : AuditRecord) (her : enqRecord = {
      ts_unix := now
      event_type := "task.enqueued"
      request_id := some request.request_id
      task_id := some task.task_id
      project := some project
      metadata := .obj [("plugin", .str task.payload.plugin),
        ("task_type", .str task_type), ("origin_task_id", .str task.task_id)] })
    (htt : strTrim task_type ≠ "")
    (hplug : strTrim task.payload.plugin ≠ "")
    (rc : String) (hallow : rt.policy.decide request = .ok (.Allow rc))
    (haudit1 : rt.auditSink policyRecord = .ok ())
    (hwrite : ingress.write_task_payload queued = .ok ())
    (haudit2 : rt.auditSink enqRecord = .ok ()) :
    rt.handle_directive ingress task now idx
        (.EnqueueTask task_type projectOpt reasonOpt payload) =
      ([.audit policyRecord, .ingressWrite queued, .audit enqRecord],
       .ok (some ⟨request.request_id, .Executed, "task_enqueued",
         .obj [("task_type", .str task_type), ("project", .str project)]⟩)) ∧
    queued.field "schema_version" = some (.num 1) ∧
    queued.field "type" = some (.str task_type) ∧
    queued.field "source" = some (.str "plugin") ∧
    queued.field "created_at_unix" = some (.num now) ∧
    ((queued.field "payload").bind (fun p => p.field "project") = some (.str project)) ∧
    ((queued.field "payload").bind (fun p => p.field "plugin") =
      some (.str task.payload.plugin)) ∧
    ((queued.field "payload").bind (fun p => p.field "task_type") =
      some (.str task_type)) ∧
    ((queued.field "payload").bind (fun p => p.field "origin_task_id") =
      some (.str task.task_id)) ∧
    ((queued.field "payload").bind (fun p => p.field "data") = some payload) := by
  subst hproj hreq hq hpr her
  have hcap : ¬ strTrim "task.enqueue" = "" := by decide
  refine ⟨?_, ?_, ?_, ?_, ?_, ?_, ?_, ?_, ?_, ?_⟩
  · simp only [OrchestratorRuntime.handle_directive, if_neg htt,
      OrchestratorRuntime.evaluate_policy, validate_capability, if_neg hplug, if_neg hcap,
      decision_tag]
    simp only [hallow, haudit1, hwrite, haudit2]
    simp
  all_goals simp [build_enqueued_task, Json.field]

/-- C6 witness: a concrete runtime granting `(plug, proj, task.enqueue)`
enqueues the follow-up task for directive `EnqueueTask{task_type="x"}`: one
ingress write of the built payload, strictly before the `task.enqueued` audit
record, with outcome `Executed{task_enqueued}`. -/
theorem watchdog_enqueue_allow_spec_witness :
    OrchestratorRuntime.handle_directive rtW ingressOk taskW 5 0
        (.EnqueueTask "x" Option.none Option.none .null) =
      ([.audit ⟨5, "policy.decision", some "t1-0-enqueue", Option.none, some "proj",
          .obj [("plugin", .str "plug"), ("capability", .str "task.enqueue"),
            ("decision", .str "allow")]⟩,
        .ingressWrite (build_enqueued_task taskW 0 "x" "proj" .null 5),
        .audit ⟨5, "task.enqueued", some "t1-0-enqueue", some "t1", some "proj",
          .obj [("plugin", .str "plug"), ("task_type", .str "x"),
            ("origin_task_id", .str "t1")]⟩],
       .ok (some ⟨"t1-0-enqueue", .Executed, "task_enqueued",
         .obj [("task_type", .str "x"), ("project", .str "proj")]⟩)) :=
  (watchdog_enqueue_allow_spec rtW ingressOk taskW 5 0 "x" Option.none Option.none .null
    "proj" rfl
    ⟨"t1-0-enqueue", .sensitive,
      ⟨"plug", "proj", "task.enqueue", ["project"], "plugin enqueue request for x"⟩,
      .obj [("task_type", .str "x"), ("origin_task_id", .str "t1")]⟩ rfl
    (build_enqueued_task taskW 0 "x" "proj" .null 5) rfl
    ⟨5, "policy.decision", some "t1-0-enqueue", Option.none, some "proj",
      .obj [("plugin", .str "plug"), ("capability", .str "task.enqueue"),
        ("decision", .str "allow")]⟩ rfl
    ⟨5, "task.enqueued", some "t1-0-enqueue", some "t1", some "proj",
      .obj [("plugin", .str "plug"), ("task_type", .str "x"),
        ("origin_task_id", .str "t1")]⟩ rfl
    (by decide) (by decide) "capability_granted" rfl rfl rfl rfl).1

/-! ### Watchdog non-atomicity (C9) -/

lemma process_directives_prefix_error (rt : OrchestratorRuntime) (ingress : TaskIngress)
    (task : WatchdogTaskEnvelope) (now : Nat) (ds1 : List PluginDirective) :
    ∀ (ds2 : List PluginDirective) (idx : Nat) (tr1 tr2 : List Effect)
      (outs1 : List ActionOutcome) (e : RuntimeError),
      rt.process_directives ingress task now ds1 idx = (tr1, .ok outs1) →
      rt.process_directives ingress task now ds2 (idx + ds1.length) = (tr2, .error e) →
      rt.process_directives ingress task now (ds1 ++ ds2) idx = (tr1 ++ tr2, .error e) := by
  induction ds1 with
  | nil =>
    intro ds2 idx tr1 tr2 outs1 e h1 h2
    simp only [OrchestratorRuntime.process_directives, Prod.mk.injEq] at h1
    obtain ⟨h1a, -⟩ := h1
    simpa [← h1a] using h2
  | cons d rest ih =>
    intro ds2 idx tr1 tr2 outs1 e h1 h2
    simp only [OrchestratorRuntime.process_directives, List.cons_append] at h1 ⊢
    cases hd : rt.handle_directive ingress task now idx d with
    | mk trd resd =>
      rw [hd] at h1
      cases resd with
      | error e1 => simp at h1
      | ok out =>
        cases hrest : rt.process_directives ingress task now rest (idx + 1) with
        | mk trR resR =>
          rw [hrest] at h1
          cases resR with
          | error e1 => simp at h1
          | ok outsR =>
            simp only [Prod.mk.injEq, Except.ok.injEq] at h1
            obtain ⟨h1a, -⟩ := h1
            have h2' : rt.process_directives ingress task now ds2 ((idx + 1) + rest.length)
                = (tr2, .error e) := by
              have harith : (idx + 1) + rest.length = idx + (d :: rest).length := by
                simp [List.length_cons]
                omega
              rw [harith]
              exact h2
            have hrec := ih ds2 (idx + 1) trR tr2 outsR e hrest h2'
            simp only [List.append_eq] at hrec ⊢
            simp only [hrec]
            simp [← h1a, List.append_assoc]

/-- C9: `handle_watchdog_task` is not atomic across directives.  If a prefix of
the directive list processes successfully — performing its side effects `tr1`
(executed actions, ingress task writes, audit records) and accumulating
outcomes `outs1` — and the next directive fails (for instance an
`EnqueueTask` with an empty `task_type`, a failing executor, or a failing
audit sink), the whole call returns that error: the accumulated outcomes
`outs1` are discarded, while the prefix's side effects `tr1` remain in the
effect trace — nothing is rolled back. -/
theorem handle_watchdog_task_not_atomic (rt : OrchestratorRuntime)
    (runner : PluginEventRunner) (ingress : TaskIngress) (now : Nat)
    (task : WatchdogTaskEnvelope) (ds1 ds2 : List PluginDirective) (d : PluginDirective)
    (tr1 trd : List Effect) (outs1 : List ActionOutcome) (e : RuntimeError)
    (hparse : parse_watchdog_task task = .ok task)
    (hdisp : runner.dispatch_event task.payload.plugin
      (OrchestratorRuntime.received_event task now) = .ok (ds1 ++ d :: ds2))
    (h1 : rt.process_directives ingress task now ds1 0 = (tr1, .ok outs1))
    (hd : rt.handle_directive ingress task now ds1.length d = (trd, .error e)) :
    rt.handle_watchdog_task runner ingress now task = (tr1 ++ trd, .error e) := by
  have hsuffix : rt.process_directives ingress task now (d :: ds2) (0 + ds1.length)
      = (trd, .error e) := by
    simp only [OrchestratorRuntime.process_directives, Nat.zero_add, hd]
  have hall := process_directives_prefix_error rt ingress task now ds1 (d :: ds2) 0
    tr1 trd outs1 e h1 hsuffix
  simp [OrchestratorRuntime.handle_watchdog_task, hparse, hdisp, hall]

/-- C9 witness: dispatching two `EnqueueTask` directives where the first is
granted and the second has an empty `task_type` returns only the
invalid-input error — the first directive's outcome is discarded even though
its ingress write and audit records already happened and stay in the trace. -/
theorem handle_watchdog_task_not_atomic_witness :
    OrchestratorRuntime.handle_watchdog_task rtW
      (runnerOf [.EnqueueTask "x" Option.none Option.none .null,
                 .EnqueueTask "" Option.none Option.none .null]) ingressOk 5 taskW =
      ([.audit ⟨5, "policy.decision", some "t1-0-enqueue", Option.none, some "proj",
          .obj [("plugin", .str "plug"), ("capability", .str "task.enqueue"),
            ("decision", .str "allow")]⟩,
        .ingressWrite (build_enqueued_task taskW 0 "x" "proj" .null 5),
        .audit ⟨5, "task.enqueued", some "t1-0-enqueue", some "t1", some "proj",
          .obj [("plugin", .str "plug"), ("task_type", .str "x"),
            ("origin_task_id", .str "t1")]⟩],
       .error (.InvalidInput "enqueue_task requires non-empty task_type")) := by
  have h := handle_watchdog_task_not_atomic rtW
    (runnerOf [.EnqueueTask "x" Option.none Option.none .null,
               .EnqueueTask "" Option.none Option.none .null]) ingressOk 5 taskW
    [.EnqueueTask "x" Option.none Option.none .null] []
    (.EnqueueTask "" Option.none Option.none .null)
    [.audit ⟨5, "policy.decision", some "t1-0-enqueue", Option.none, some "proj",
        .obj [("plugin", .str "plug"), ("capability", .str "task.enqueue"),
          ("decision", .str "allow")]⟩,
      .ingressWrite (build_enqueued_task taskW 0 "x" "proj" .null 5),
      .audit ⟨5, "task.enqueued", some "t1-0-enqueue", some "t1", some "proj",
        .obj [("plugin", .str "plug"), ("task_type", .str "x"),
          ("origin_task_id", .str "t1")]⟩] []
    [⟨"t1-0-enqueue", .Executed, "task_enqueued",
      .obj [("task_type", .str "x"), ("project", .str "proj")]⟩]
    (.InvalidInput "enqueue_task requires non-empty task_type")
    rfl rfl rfl rfl
  simpa using h

/-! ### Migration export / verify round trip (C7) -/

lemma lookup_write_entries (hash : String → String) (files : List (String × String))
    (path contents : String) (hnodup : (files.map (·.1)).Nodup)
    (hmem : (path, contents) ∈ files) :
    lookupEntry (write_checksums_entries hash files) path = some (hash contents) := by
  induction files with
  | nil => simp at hmem
  | cons qc rest ih =>
    obtain ⟨q, c⟩ := qc
    simp only [List.map_cons, List.nodup_cons] at hnodup
    obtain ⟨hq, hrest⟩ := hnodup
    rcases List.mem_cons.mp hmem with heq | hmemr
    · obtain ⟨rfl, rfl⟩ := Prod.mk.injEq path contents q c ▸ And.intro (congrArg Prod.fst heq) (congrArg Prod.snd heq)
      simp [write_checksums_entries, lookupEntry]
    · have hqne : ¬ q = path := by
        intro h
        subst h
        exact hq (by simpa using List.mem_map_of_mem (·.1) hmemr)
      have hstep : lookupEntry (write_checksums_entries hash ((q, c) :: rest)) path
          = lookupEntry (write_checksums_entries hash rest) path := by
        simp only [write_checksums_entries, List.map_cons, lookupEntry]
        rw [List.find?_cons_of_neg _ (by simpa using hqne)]
      rw [hstep]
      exact ih hrest hmemr

lemma check_files_ok (hash : String → String) (entries : List (String × String))
    (files : List (String × String))
    (h : ∀ pc ∈ files, lookupEntry entries pc.1 = some (hash pc.2)) :
    check_files hash entries files = .ok () := by
  induction files with
  | nil => rfl
  | cons pc rest ih =>
    obtain ⟨path, contents⟩ := pc
    have hp := h (path, contents) (by simp)
    simp only [check_files, hp, ne_eq, not_true_eq_false, if_neg (by simp : ¬ hash contents ≠ hash contents)]
    exact ih (fun pc hm => h pc (List.mem_cons_of_mem _ hm))

lemma check_files_mutated (hash : String → String) (hinj : Function.Injective hash)
    (entries : List (String × String)) (files : List (String × String))
    (path contents c2 : String)
    (hnodup : (files.map (·.1)).Nodup)
    (hmem : (path, contents) ∈ files)
    (hne : c2 ≠ contents)
    (hlook : ∀ pc ∈ files, lookupEntry entries pc.1 = some (hash pc.2)) :
    check_files hash entries
      (files.map (fun pc => if pc.1 = path then (pc.1, c2) else pc)) =
      .error ("checksum mismatch for bundle file " ++ path ++ ": expected " ++
        hash contents ++ ", got " ++ hash c2 ++
        ". Bundle may be tampered; re-run migrate export.") := by
  induction files with
  | nil => simp at hmem
  | cons qc rest ih =>
    obtain ⟨q, c⟩ := qc
    simp only [List.map_cons, List.nodup_cons] at hnodup
    obtain ⟨hq, hrest⟩ := hnodup
    by_cases hqp : q = path
    · subst hqp
      have hc : c = contents := by
        rcases List.mem_cons.mp hmem with heq | hmemr
        · exact (congrArg Prod.snd heq).symm
        · exact absurd (by simpa using List.mem_map_of_mem (·.1) hmemr) hq
      subst hc
      have hp : lookupEntry entries q = some (hash c) := hlook (q, c) (by simp)
      have hhne : hash c2 ≠ hash c := fun hEq => hne (hinj hEq)
      have hlist : ((q, c) :: rest).map (fun pc => if pc.1 = q then (pc.1, c2) else pc)
          = (q, c2) :: rest.map (fun pc => if pc.1 = q then (pc.1, c2) else pc) := by
        simp
      rw [hlist]
      simp only [check_files]
      rw [hp]
      dsimp only
      rw [if_pos hhne]
    · have hmemr : (path, contents) ∈ rest := by
        rcases List.mem_cons.mp hmem with heq | hmemr
        · exact absurd (congrArg Prod.fst heq).symm hqp
        · exact hmemr
      have hp : lookupEntry entries q = some (hash c) := hlook (q, c) (by simp)
      have hlist : ((q, c) :: rest).map (fun pc => if pc.1 = path then (pc.1, c2) else pc)
          = (q, c) :: rest.map (fun pc => if pc.1 = path then (pc.1, c2) else pc) := by
        simp [hqp]
      rw [hlist]
      simp only [check_files]
      rw [hp]
      dsimp only
      rw [if_neg (fun hcon => hcon rfl)]
      exact ih hrest hmemr (fun pc hm => hlook pc (List.mem_cons_of_mem _ hm))

lemma map_fst_mutate (files : List (String × String)) (path c2 : String) :
    ((files.map (fun pc => if pc.1 = path then (pc.1, c2) else pc)).map (·.1)) =
      files.map (·.1) := by
  rw [List.map_map]
  apply List.map_congr_left
  intro pc _
  by_cases h : pc.1 = path <;> simp [h]

lemma filter_not_contains_self (l : List String) :
    l.filter (fun p => !(l.contains p)) = [] := by
  rw [List.filter_eq_nil_iff]
  intro a ha
  simp [List.elem_iff, ha]

lemma write_entries_map_fst (hash : String → String) (files : List (String × String)) :
    (write_checksums_entries hash files).map (·.1) = files.map (·.1) := by
  simp [write_checksums_entries, List.map_map]

/-- C7: after a successful export, verifying the bundle's checksums succeeds;
and flipping a byte of any file listed in `checksums.sha256` (replacing its
contents with different contents) makes verification fail with
`checksum mismatch for bundle file <that path>` (for an injective digest
function and files at distinct paths, as the filesystem guarantees). -/
theorem export_verify_round_trip (hash : String → String)
    (hinj : Function.Injective hash)
    (sectionFiles : List (String × String)) (b : Bundle)
    (hnodup : ((sectionFiles.map (·.1)) ++ ["manifest.json"]).Nodup)
    (hexp : write_bundle hash sectionFiles = .ok b) :
    verify_checksums hash b = .ok () ∧
    ∀ path contents c2, (path, contents) ∈ b.payloadFiles → c2 ≠ contents →
      verify_checksums hash (mutate_file b path c2) =
        .error ("checksum mismatch for bundle file " ++ path ++ ": expected " ++
          hash contents ++ ", got " ++ hash c2 ++
          ". Bundle may be tampered; re-run migrate export.") := by
  unfold write_bundle at hexp
  by_cases hempty : sectionFiles.isEmpty
  · simp [hempty] at hexp
  · rw [if_neg (by simpa using hempty)] at hexp
    injection hexp with hb
    subst hb
    set written := sectionFiles ++ [("manifest.json", manifest_json)] with hwritten
    have hwnodup : (written.map (·.1)).Nodup := by
      simpa [hwritten] using hnodup
    have hmanifest : ("manifest.json", manifest_json) ∈ written := by
      simp [hwritten]
    have hlookman := lookup_write_entries hash written "manifest.json" manifest_json
      hwnodup hmanifest
    have hlookall : ∀ pc ∈ written,
        lookupEntry (write_checksums_entries hash written) pc.1 = some (hash pc.2) := by
      intro pc hm
      exact lookup_write_entries hash written pc.1 pc.2 hwnodup (by simpa using hm)
    constructor
    · simp only [verify_checksums, hlookman, write_entries_map_fst,
        filter_not_contains_self, List.isEmpty_nil, Bool.not_true, if_false]
      simp only [reduceCtorEq, if_false]
      exact check_files_ok hash _ written hlookall
    · intro path contents c2 hmem hne
      simp only [mutate_file, verify_checksums, hlookman, write_entries_map_fst,
        map_fst_mutate, filter_not_contains_self, List.isEmpty_nil, Bool.not_true,
        if_false]
      simp only [reduceCtorEq, if_false]
      exact check_files_mutated hash hinj _ written path contents c2 hwnodup hmem hne
        hlookall

/-- C7 witness: exporting the single section file `skills/a.txt = "abc"`
verifies, and flipping its contents to `"abd"` makes verification fail with
the mismatch message for `skills/a.txt` (digest abstracted to the identity
function, which is injective). -/
theorem export_verify_round_trip_witness :
    verify_checksums id
      ⟨[("skills/a.txt", "abc"), ("manifest.json", manifest_json)],
       [("skills/a.txt", "abc"), ("manifest.json", manifest_json)]⟩ = .ok () ∧
    verify_checksums id
      (mutate_file
        ⟨[("skills/a.txt", "abc"), ("manifest.json", manifest_json)],
         [("skills/a.txt", "abc"), ("manifest.json", manifest_json)]⟩
        "skills/a.txt" "abd") =
      .error ("checksum mismatch for bundle file " ++ "skills/a.txt" ++ ": expected " ++
        "abc" ++ ", got " ++ "abd" ++
        ". Bundle may be tampered; re-run migrate export.") := by
  have h := export_verify_round_trip id (fun _ _ hh => hh)
    [("skills/a.txt", "abc")]
    ⟨[("skills/a.txt", "abc"), ("manifest.json", manifest_json)],
     [("skills/a.txt", "abc"), ("manifest.json", manifest_json)]⟩
    (by decide) rfl
  exact ⟨h.1, h.2 "skills/a.txt" "abc" "abd" (by simp) (by decide)⟩

end Odin
